import Mathlib

/-!
Verification of the VortexArm inverse-kinematics solver
(`inverse_kinematics.py`) against its specification.

The Python module computes, for a 3-DOF arm (rotating base of height
`base`, upper arm `arm1`, forearm `arm2`):
  * `get_angles x y z base arm1 arm2` — the joint angles
    (base, shoulder, elbow) in degrees;
  * `get_point x y z base arm1 arm2 alpha_rad` — the Cartesian position
    of the elbow joint.

The embedding below models Python floats by real numbers.  Fallible
Python primitives (`/` raising `ZeroDivisionError`, `math.sqrt`,
`math.asin`, `math.acos` raising `ValueError` out of domain) are
additionally modelled by `Option`-valued variants, used to settle the
"never raises" claims.
-/

open Real

noncomputable section

namespace VortexArm

/-- Model of Python `math.degrees`. -/
def degrees (t : ℝ) : ℝ := t * 180 / π

/-- Model of Python `math.radians`. -/
def radians (t : ℝ) : ℝ := t * π / 180

/-- Model of Python `math.atan2 y x`: the angle of the point `(x, y)`,
in `(-π, π]`, with `atan2 0 0 = 0`. -/
def atan2 (y x : ℝ) : ℝ :=
  if 0 < x then arctan (y / x)
  else if x < 0 then
    if 0 ≤ y then arctan (y / x) + π else arctan (y / x) - π
  else
    if 0 < y then π / 2 else if y < 0 then -(π / 2) else 0

/-- The constant `e` of `get_point`: half the difference of the two
expanded sphere equations. -/
def ik_e (x y z base arm1 arm2 : ℝ) : ℝ :=
  (x^2 + y^2 + z^2 - base^2 + arm1^2 - arm2^2) / 2

/-- The denominator `x_y_term = x + y*tan(alpha_rad)` of `get_point`. -/
def ik_xyterm (x y alpha_rad : ℝ) : ℝ := x + y * tan alpha_rad

/-- The factor `tan_term = 1 + tan(alpha_rad)**2` of `get_point`. -/
def ik_tanterm (alpha_rad : ℝ) : ℝ := 1 + tan alpha_rad ^ 2

/-- Quadratic coefficient `a1` of `get_point`. -/
def ik_a1 (x y z base alpha_rad : ℝ) : ℝ :=
  (z - base)^2 * ik_tanterm alpha_rad / (ik_xyterm x y alpha_rad)^2 + 1

/-- Quadratic coefficient `b1` of `get_point`. -/
def ik_b1 (x y z base arm1 arm2 alpha_rad : ℝ) : ℝ :=
  2 * (ik_e x y z base arm1 arm2 * (z - base) * ik_tanterm alpha_rad /
        (ik_xyterm x y alpha_rad)^2 + base)

/-- Quadratic coefficient `c1` of `get_point`. -/
def ik_c1 (x y z base arm1 arm2 alpha_rad : ℝ) : ℝ :=
  (ik_e x y z base arm1 arm2)^2 * ik_tanterm alpha_rad /
    (ik_xyterm x y alpha_rad)^2 + base^2 - arm1^2

/-- Discriminant `b1**2 - 4*a1*c1` of `get_point`. -/
def ik_disc (x y z base arm1 arm2 alpha_rad : ℝ) : ℝ :=
  (ik_b1 x y z base arm1 arm2 alpha_rad)^2 -
    4 * ik_a1 x y z base alpha_rad * ik_c1 x y z base arm1 arm2 alpha_rad

/-- Model of `get_point`: the elbow-joint position `(a, b, c)` computed
by `inverse_kinematics.get_point`. -/
def get_point (x y z base arm1 arm2 alpha_rad : ℝ) : ℝ × ℝ × ℝ :=
  let e := ik_e x y z base arm1 arm2
  if x ≠ 0 ∨ y ≠ 0 then
    let x_y_term := ik_xyterm x y alpha_rad
    if x_y_term = 0 then
      (0, 0, if z ≠ base then base + e / (z - base) else base + arm1)
    else
      let c :=
        if ik_disc x y z base arm1 arm2 alpha_rad < 0 then
          base + arm1 * (z - base) / sqrt (x^2 + y^2 + (z - base)^2)
        else
          (ik_b1 x y z base arm1 arm2 alpha_rad +
              sqrt (ik_disc x y z base arm1 arm2 alpha_rad)) /
            (2 * ik_a1 x y z base alpha_rad)
      let a := (e - c * (z - base)) / x_y_term
      (a, a * tan alpha_rad, c)
  else
    (0, 0, min (base + arm1) z)

/-- The base-rotation angle `alpha` (radians) computed by `get_angles`. -/
def baseAngle (x y : ℝ) : ℝ :=
  if x ≠ 0 then atan2 y x else if 0 ≤ y then π / 2 else -(π / 2)

/-- Model of `get_angles`: the joint angles
`(alpha_deg, beta_deg, gamma_deg)` computed by
`inverse_kinematics.get_angles` (degrees). -/
def get_angles (x y z base arm1 arm2 : ℝ) : ℝ × ℝ × ℝ :=
  let d := sqrt (x^2 + y^2 + (z - base)^2)
  let alpha := baseAngle x y
  let beta :=
    if arm1 + arm2 - 0.001 < d then
      atan2 (z - base) (sqrt (x^2 + y^2)) + 0
    else
      (if d ≠ 0 then arcsin ((z - base) / d) else 0) +
        arccos (max (min ((arm1^2 + d^2 - arm2^2) / (2 * arm1 * d)) 1) (-1))
  let gamma :=
    arccos (max (min ((arm1^2 + arm2^2 - d^2) / (2 * arm1 * arm2)) 1) (-1))
  (degrees alpha, degrees beta, degrees gamma)

/-- Model of Python division: `none` models `ZeroDivisionError`. -/
def pydiv (a b : ℝ) : Option ℝ := if b = 0 then none else some (a / b)

/-- Model of Python `math.sqrt`: `none` models `ValueError` on a
negative argument. -/
def pysqrt (a : ℝ) : Option ℝ := if a < 0 then none else some (sqrt a)

/-- Model of Python `math.asin`: `none` models `ValueError` outside
`[-1, 1]`. -/
def pyasin (a : ℝ) : Option ℝ :=
  if a < -1 ∨ 1 < a then none else some (arcsin a)

/-- Model of Python `math.acos`: `none` models `ValueError` outside
`[-1, 1]`. -/
def pyacos (a : ℝ) : Option ℝ :=
  if a < -1 ∨ 1 < a then none else some (arccos a)

/-- Fallible model of `get_point`: every Python operation that can raise
(`/`, `math.sqrt`) is `Option`-checked, in the evaluation order of the
source.  `none` models an uncaught exception. -/
def get_pointChecked (x y z base arm1 arm2 alpha_rad : ℝ) :
    Option (ℝ × ℝ × ℝ) :=
  let e := ik_e x y z base arm1 arm2
  if x ≠ 0 ∨ y ≠ 0 then
    if ik_xyterm x y alpha_rad = 0 then
      if z ≠ base then
        (pydiv e (z - base)).map (fun q => (0, 0, base + q))
      else some (0, 0, base + arm1)
    else do
      let _a1q ← pydiv ((z - base)^2 * ik_tanterm alpha_rad)
        ((ik_xyterm x y alpha_rad)^2)
      let _b1q ← pydiv (e * (z - base) * ik_tanterm alpha_rad)
        ((ik_xyterm x y alpha_rad)^2)
      let _c1q ← pydiv (e^2 * ik_tanterm alpha_rad)
        ((ik_xyterm x y alpha_rad)^2)
      let c ←
        if ik_disc x y z base arm1 arm2 alpha_rad < 0 then do
          let root ← pysqrt (x^2 + y^2 + (z - base)^2)
          (pydiv (arm1 * (z - base)) root).map (fun frac => base + frac)
        else do
          let d1 ← pysqrt (ik_disc x y z base arm1 arm2 alpha_rad)
          pydiv (ik_b1 x y z base arm1 arm2 alpha_rad + d1)
            (2 * ik_a1 x y z base alpha_rad)
      (pydiv (e - c * (z - base)) (ik_xyterm x y alpha_rad)).map
        (fun a => (a, a * tan alpha_rad, c))
  else
    some (0, 0, min (base + arm1) z)

/-- Fallible model of `get_angles`: every Python operation that can
raise (`/`, `math.sqrt`, `math.asin`, `math.acos`) is `Option`-checked,
in the evaluation order of the source. -/
def get_anglesChecked (x y z base arm1 arm2 : ℝ) : Option (ℝ × ℝ × ℝ) := do
  let d ← pysqrt (x^2 + y^2 + (z - base)^2)
  let alpha := baseAngle x y
  let beta ←
    if arm1 + arm2 - 0.001 < d then do
      let r ← pysqrt (x^2 + y^2)
      some (atan2 (z - base) r + 0)
    else do
      let theta1 ←
        if d ≠ 0 then do
          let q ← pydiv (z - base) d
          pyasin q
        else some 0
      let ct2 ← pydiv (arm1^2 + d^2 - arm2^2) (2 * arm1 * d)
      let theta2 ← pyacos (max (min ct2 1) (-1))
      some (theta1 + theta2)
  let cg ← pydiv (arm1^2 + arm2^2 - d^2) (2 * arm1 * arm2)
  let gamma ← pyacos (max (min cg 1) (-1))
  some (degrees alpha, degrees beta, degrees gamma)

/-- Modelled from the spec (no forward kinematics exists in the source):
the round-trip reconstruction of §8, read literally — rotate by the base
angle, extend by `arm1` at the shoulder angle, then extend by `arm2` at
the cumulative angle shoulder + elbow.  Takes the degree triple returned
by `get_angles`. -/
def fk_spec (angles : ℝ × ℝ × ℝ) (base arm1 arm2 : ℝ) : ℝ × ℝ × ℝ :=
  let alpha := radians angles.1
  let beta := radians angles.2.1
  let delta := beta + radians angles.2.2
  let r := arm1 * cos beta + arm2 * cos delta
  (r * cos alpha, r * sin alpha, base + arm1 * sin beta + arm2 * sin delta)

/-- Corrected forward kinematics: the forearm direction is the
cumulative angle shoulder + elbow − 180°, because `get_angles` returns
the interior elbow angle (180° when the arm is straight). -/
def fk_corrected (angles : ℝ × ℝ × ℝ) (base arm1 arm2 : ℝ) : ℝ × ℝ × ℝ :=
  let alpha := radians angles.1
  let beta := radians angles.2.1
  let delta := beta + radians angles.2.2 - π
  let r := arm1 * cos beta + arm2 * cos delta
  (r * cos alpha, r * sin alpha, base + arm1 * sin beta + arm2 * sin delta)

/-! ### Basic facts about the embedding -/

theorem tan_atan2 (y x : ℝ) (hx : x ≠ 0) : tan (atan2 y x) = y / x := by
  unfold atan2
  rcases lt_trichotomy x 0 with h | h | h
  · rw [if_neg (by linarith), if_pos h]
    by_cases hy : 0 ≤ y
    · rw [if_pos hy, tan_add_pi, tan_arctan]
    · rw [if_neg hy, tan_sub_pi, tan_arctan]
  · exact absurd h hx
  · rw [if_pos h, tan_arctan]

theorem degrees_pi_div_two : degrees (π / 2) = 90 := by
  unfold degrees
  field_simp
  ring

theorem degrees_pi : degrees π = 180 := by
  unfold degrees
  field_simp

/-- C7: for a target on the vertical axis (`x = y = 0`), `get_point`
returns exactly `(0, 0, min (base + arm1) z)`, and in particular the
elbow z-coordinate never exceeds the target z-coordinate. -/
theorem get_point_on_axis (z base arm1 arm2 alpha_rad : ℝ) :
    get_point 0 0 z base arm1 arm2 alpha_rad = (0, 0, min (base + arm1) z) ∧
      (get_point 0 0 z base arm1 arm2 alpha_rad).2.2 ≤ z := by
  have h : get_point 0 0 z base arm1 arm2 alpha_rad =
      (0, 0, min (base + arm1) z) := by
    simp [get_point]
  exact ⟨h, by rw [h]; exact min_le_right _ _⟩

/-- C10: in every branch of `get_point`, the returned elbow position
`(a, b, c)` satisfies `b = a * tan alpha_rad`: the elbow lies in the
vertical plane at the base rotation angle. -/
theorem get_point_plane_invariant (x y z base arm1 arm2 alpha_rad : ℝ) :
    (get_point x y z base arm1 arm2 alpha_rad).2.1 =
      (get_point x y z base arm1 arm2 alpha_rad).1 * tan alpha_rad := by
  unfold get_point
  by_cases h1 : x ≠ 0 ∨ y ≠ 0
  · simp only [if_pos h1]
    by_cases h2 : ik_xyterm x y alpha_rad = 0
    · simp [h2]
    · simp [h2]
  · simp [h1]

/-- C8: the base angle returned by `get_angles` is
`degrees (atan2 y x)` when `x ≠ 0`; when `x = 0` it is `+90` degrees if
`y ≥ 0` and `-90` degrees if `y < 0`. -/
theorem get_angles_base_angle (x y z base arm1 arm2 : ℝ) :
    (x ≠ 0 → (get_angles x y z base arm1 arm2).1 = degrees (atan2 y x)) ∧
      (x = 0 → 0 ≤ y → (get_angles x y z base arm1 arm2).1 = 90) ∧
      (x = 0 → y < 0 → (get_angles x y z base arm1 arm2).1 = -90) := by
  refine ⟨fun hx => ?_, fun hx hy => ?_, fun hx hy => ?_⟩
  · simp [get_angles, baseAngle, hx]
  · rw [show (get_angles x y z base arm1 arm2).1 = degrees (baseAngle x y) from rfl]
    rw [baseAngle, if_neg (by simpa using hx), if_pos hy, degrees_pi_div_two]
  · rw [show (get_angles x y z base arm1 arm2).1 = degrees (baseAngle x y) from rfl]
    rw [baseAngle, if_neg (by simpa using hx), if_neg (not_le.mpr hy)]
    rw [show degrees (-(π / 2)) = -degrees (π / 2) by unfold degrees; ring]
    rw [degrees_pi_div_two]

/-- C8 witness: at `(x, y) = (0, 1)` the returned base angle is `90`
degrees. -/
theorem get_angles_base_angle_witness : (get_angles 0 1 5 1 3 2).1 = 90 :=
  (get_angles_base_angle 0 1 5 1 3 2).2.1 rfl (by norm_num)

/-- C5: `get_point` never raises — the fallible model, in which every
Python division, square root and inverse-trigonometric call is checked,
always succeeds, for every finite input and every `base_angle_rad`, and
returns exactly the value of the total model. -/
theorem get_pointChecked_eq (x y z base arm1 arm2 alpha_rad : ℝ) :
    get_pointChecked x y z base arm1 arm2 alpha_rad =
      some (get_point x y z base arm1 arm2 alpha_rad) := by
  unfold get_pointChecked get_point
  by_cases h1 : x ≠ 0 ∨ y ≠ 0
  · simp only [if_pos h1]
    by_cases h2 : ik_xyterm x y alpha_rad = 0
    · simp only [if_pos h2]
      by_cases h3 : z ≠ base
      · have hz : z - base ≠ 0 := sub_ne_zero.mpr h3
        simp [pydiv, hz, h3]
      · simp [h3]
    · simp only [if_neg h2]
      have h2' : (ik_xyterm x y alpha_rad) ^ 2 ≠ 0 := pow_ne_zero _ h2
      have ha1 : (0:ℝ) < ik_a1 x y z base alpha_rad := by
        unfold ik_a1 ik_tanterm; positivity
      have hr2 : (0:ℝ) < x ^ 2 + y ^ 2 + (z - base) ^ 2 := by
        rcases h1 with h | h
        · positivity
        · positivity
      have hroot : sqrt (x ^ 2 + y ^ 2 + (z - base) ^ 2) ≠ 0 :=
        ne_of_gt (sqrt_pos.mpr hr2)
      by_cases h4 : ik_disc x y z base arm1 arm2 alpha_rad < 0
      · simp [pydiv, pysqrt, h2', h4, not_lt.mpr hr2.le, hroot, h2]
      · simp [pydiv, pysqrt, h2', h4, h2,
          ne_of_gt (by positivity : (0:ℝ) < 2 * ik_a1 x y z base alpha_rad)]
  · simp [h1]

/-- C4: the claim fails on the code.  With the target exactly at the
base joint (`d = 0`) and a geometry whose reach exceeds the `0.001`
threshold, the law-of-cosines branch is taken and the division
`(arm1² + d² - arm2²) / (2·arm1·d)` has a zero divisor, so `get_angles`
raises `ZeroDivisionError`: the fallible model returns `none`. -/
theorem get_anglesChecked_d_zero_raises :
    get_anglesChecked 0 0 100 100 50 50 = none := by
  have h0 : ((0:ℝ)^2 + 0^2 + (100 - 100)^2) = 0 := by norm_num
  unfold get_anglesChecked
  rw [show pysqrt ((0:ℝ)^2 + 0^2 + (100 - 100)^2) = some 0 by
    rw [h0]; simp [pysqrt]]
  simp [pydiv]
  intro hcontra
  norm_num at hcontra

/-- C3 counterexample: at distance exactly `arm1 + arm2` (target
`(2, 0, 1)` with the positive geometry `base = 1`, `arm1 = arm2 = 1`)
the returned elbow angle is `180` degrees, not approximately `0`
degrees. -/
theorem get_angles_fullreach_counterexample :
    (get_angles 2 0 1 1 1 1).2.2 = 180 ∧
      ¬ |(get_angles 2 0 1 1 1 1).2.2| ≤ 1 := by
  have h4 : sqrt ((2:ℝ)^2 + 0^2 + (1 - 1)^2) = 2 := by
    rw [show ((2:ℝ)^2 + 0^2 + (1 - 1)^2) = 2^2 by norm_num]
    exact sqrt_sq (by norm_num)
  have hval : (get_angles 2 0 1 1 1 1).2.2 = 180 := by
    have : (get_angles 2 0 1 1 1 1).2.2 =
        degrees (arccos (max (min
          ((1^2 + 1^2 - sqrt ((2:ℝ)^2 + 0^2 + (1 - 1)^2)^2) / (2 * 1 * 1)) 1)
          (-1))) := rfl
    rw [this, h4]
    rw [show ((1:ℝ)^2 + 1^2 - (2:ℝ)^2) / (2 * 1 * 1) = -1 by norm_num]
    rw [show max (min (-1 : ℝ) 1) (-1) = -1 by norm_num]
    rw [arccos_neg_one, degrees_pi]
  refine ⟨hval, ?_⟩
  rw [hval]
  norm_num

/-- C3 amended: whenever `d > arm1 + arm2 - 0.001` the shoulder angle is
`degrees (atan2 (z - base) (sqrt (x² + y²)))` as claimed, but the elbow
angle is `degrees (arccos (clamp ((arm1² + arm2² - d²)/(2·arm1·arm2))))`;
at `d = arm1 + arm2` (positive arms) it equals `180` degrees, not `0`. -/
theorem get_angles_fullreach (x y z base arm1 arm2 : ℝ)
    (h : arm1 + arm2 - 0.001 < sqrt (x^2 + y^2 + (z - base)^2)) :
    (get_angles x y z base arm1 arm2).2.1 =
      degrees (atan2 (z - base) (sqrt (x^2 + y^2))) ∧
    (get_angles x y z base arm1 arm2).2.2 =
      degrees (arccos (max (min
        ((arm1^2 + arm2^2 - (x^2 + y^2 + (z - base)^2)) / (2 * arm1 * arm2))
        1) (-1))) ∧
    (sqrt (x^2 + y^2 + (z - base)^2) = arm1 + arm2 → 0 < arm1 → 0 < arm2 →
      (get_angles x y z base arm1 arm2).2.2 = 180) := by
  have hd2 : sqrt (x^2 + y^2 + (z - base)^2) ^ 2 =
      x^2 + y^2 + (z - base)^2 := sq_sqrt (by positivity)
  refine ⟨?_, ?_, ?_⟩
  · show degrees (if arm1 + arm2 - 0.001 < sqrt (x^2 + y^2 + (z - base)^2)
        then _ else _) = _
    rw [if_pos h, add_zero]
  · show degrees (arccos _) = _
    rw [hd2]
  · intro hmax h1 h2
    show degrees (arccos (max (min
      ((arm1^2 + arm2^2 - sqrt (x^2 + y^2 + (z - base)^2)^2) /
        (2 * arm1 * arm2)) 1) (-1))) = 180
    rw [hmax]
    have hprod : (0:ℝ) < 2 * arm1 * arm2 := by positivity
    rw [show (arm1^2 + arm2^2 - (arm1 + arm2)^2) / (2 * arm1 * arm2) = -1 by
      rw [show arm1^2 + arm2^2 - (arm1 + arm2)^2 = -(2 * arm1 * arm2) by ring]
      rw [neg_div, div_self (ne_of_gt hprod)]]
    rw [show max (min (-1 : ℝ) 1) (-1) = -1 by norm_num]
    rw [arccos_neg_one, degrees_pi]

/-- C3 witness: at target `(2, 0, 1)` with the positive geometry
`base = 1`, `arm1 = arm2 = 1` the hypotheses hold and the elbow angle
is `180`. -/
theorem get_angles_fullreach_witness :
    (1:ℝ) + 1 - 0.001 < sqrt (2^2 + 0^2 + (1 - 1)^2) ∧
      (get_angles 2 0 1 1 1 1).2.2 = 180 := by
  have h4 : sqrt ((2:ℝ)^2 + 0^2 + (1 - 1)^2) = 2 := by
    rw [show ((2:ℝ)^2 + 0^2 + (1 - 1)^2) = 2^2 by norm_num]
    exact sqrt_sq (by norm_num)
  have hh : (1:ℝ) + 1 - 0.001 < sqrt (2^2 + 0^2 + (1 - 1)^2) := by
    rw [h4]; norm_num
  exact ⟨hh, (get_angles_fullreach 2 0 1 1 1 1 hh).2.2
    (by rw [h4]; norm_num) one_pos one_pos⟩

/-- C6 counterexample: at target `(10, 0, 0)` with `base = 0`,
`arm1 = arm2 = 1`, `alpha_rad = 0` the discriminant is negative, yet
`get_point` returns `(5, 0, 0)` whereas the point at fractional distance
`arm1/d` along the base-joint-to-target line is `(1, 0, 0)`. -/
theorem get_point_fallback_counterexample :
    ik_disc 10 0 0 0 1 1 0 < 0 ∧
      get_point 10 0 0 0 1 1 0 ≠
        (1 * 10 / sqrt ((10:ℝ)^2 + 0^2 + (0 - 0)^2),
          1 * 0 / sqrt ((10:ℝ)^2 + 0^2 + (0 - 0)^2),
          0 + 1 * (0 - 0) / sqrt ((10:ℝ)^2 + 0^2 + (0 - 0)^2)) := by
  have hsq : sqrt ((10:ℝ)^2 + 0^2 + (0 - 0)^2) = 10 := by
    rw [show ((10:ℝ)^2 + 0^2 + (0 - 0)^2) = 10^2 by norm_num]
    exact sqrt_sq (by norm_num)
  have hdisc : ik_disc 10 0 0 0 1 1 0 < 0 := by
    norm_num [ik_disc, ik_b1, ik_a1, ik_c1, ik_e, ik_tanterm, ik_xyterm,
      Real.tan_zero]
  have hval : get_point 10 0 0 0 1 1 0 = (5, 0, 0) := by
    unfold get_point
    rw [if_pos (Or.inl (by norm_num : (10:ℝ) ≠ 0))]
    rw [if_neg (by norm_num [ik_xyterm, Real.tan_zero] :
      ¬ ik_xyterm 10 0 0 = 0)]
    rw [if_pos hdisc]
    norm_num [ik_e, ik_xyterm, Real.tan_zero]
  refine ⟨hdisc, ?_⟩
  rw [hval, hsq]
  intro hcontra
  have h1 : (5:ℝ) = 1 * 10 / 10 := congrArg Prod.fst hcontra
  norm_num at h1

/-- C6 amended: in the negative-discriminant fallback only the
z-coordinate is placed on the straight base-joint-to-target line; the
x-coordinate is then back-substituted as `(e - c·(z-base))/x_y_term` and
the y-coordinate is `x`-coordinate times `tan alpha_rad`. -/
theorem get_point_fallback (x y z base arm1 arm2 alpha_rad : ℝ)
    (hxy : x ≠ 0 ∨ y ≠ 0) (hs : ik_xyterm x y alpha_rad ≠ 0)
    (hdisc : ik_disc x y z base arm1 arm2 alpha_rad < 0) :
    (get_point x y z base arm1 arm2 alpha_rad).2.2 =
      base + arm1 * (z - base) / sqrt (x^2 + y^2 + (z - base)^2) ∧
    (get_point x y z base arm1 arm2 alpha_rad).1 =
      (ik_e x y z base arm1 arm2 -
        (base + arm1 * (z - base) / sqrt (x^2 + y^2 + (z - base)^2)) *
          (z - base)) / ik_xyterm x y alpha_rad ∧
    (get_point x y z base arm1 arm2 alpha_rad).2.1 =
      (get_point x y z base arm1 arm2 alpha_rad).1 * tan alpha_rad := by
  unfold get_point
  simp only [if_pos hxy, if_neg hs, if_pos hdisc]
  exact ⟨trivial, trivial, trivial⟩

/-- C6 witness: the amended description holds at the counterexample
input `(10, 0, 0)`, `base = 0`, `arm1 = arm2 = 1`, `alpha_rad = 0`. -/
theorem get_point_fallback_witness :
    ((10:ℝ) ≠ 0 ∨ (0:ℝ) ≠ 0) ∧ ik_xyterm 10 0 0 ≠ 0 ∧
      ik_disc 10 0 0 0 1 1 0 < 0 ∧
      (get_point 10 0 0 0 1 1 0).2.2 =
        0 + 1 * (0 - 0) / sqrt (10^2 + 0^2 + (0 - 0)^2) := by
  have h1 : (10:ℝ) ≠ 0 ∨ (0:ℝ) ≠ 0 := Or.inl (by norm_num)
  have h2 : ik_xyterm 10 0 0 ≠ 0 := by
    norm_num [ik_xyterm, Real.tan_zero]
  have h3 : ik_disc 10 0 0 0 1 1 0 < 0 := by
    norm_num [ik_disc, ik_b1, ik_a1, ik_c1, ik_e, ik_tanterm, ik_xyterm,
      Real.tan_zero]
  exact ⟨h1, h2, h3, (get_point_fallback 10 0 0 0 1 1 0 h1 h2 h3).1⟩

theorem baseAngle_neg (x y : ℝ) (h : x ≠ 0 ∨ y ≠ 0) :
    baseAngle (-x) (-y) = baseAngle x y + π ∨
      baseAngle (-x) (-y) = baseAngle x y - π := by
  have hdiv : -y / -x = y / x := by
    rcases eq_or_ne x 0 with hx | hx
    · simp [hx]
    · field_simp
  unfold baseAngle atan2
  rcases lt_trichotomy x 0 with hx | hx | hx
  · have hx1 : x ≠ 0 := ne_of_lt hx
    have hx2 : (0:ℝ) < -x := by linarith
    have hx3 : (-x) ≠ 0 := ne_of_gt hx2
    rw [if_pos hx3, if_pos hx1, if_neg (not_lt.mpr hx.le), if_pos hx,
      if_pos hx2, hdiv]
    by_cases hy : 0 ≤ y
    · right; rw [if_pos hy]; ring
    · left; rw [if_neg hy]; ring
  · subst hx
    have hy0 : y ≠ 0 := h.resolve_left (by simp)
    simp only [neg_zero]
    rw [if_neg (show ¬ ((0:ℝ) ≠ 0) by simp)]
    rw [if_neg (show ¬ ((0:ℝ) ≠ 0) by simp)]
    rcases lt_trichotomy y 0 with hy | hy | hy
    · left
      rw [if_neg (not_le.mpr hy), if_pos (by linarith : (0:ℝ) ≤ -y)]
      ring
    · exact absurd hy hy0
    · right
      rw [if_pos hy.le, if_neg (by linarith : ¬ (0:ℝ) ≤ -y)]
      ring
  · have hx1 : x ≠ 0 := ne_of_gt hx
    have hx3 : (-x) ≠ 0 := by simpa using hx1
    have hx4 : ¬ (0:ℝ) < -x := by linarith
    have hx5 : -x < 0 := by linarith
    rw [if_pos hx3, if_pos hx1, if_pos hx, if_neg hx4, if_pos hx5, hdiv]
    by_cases hy : 0 ≤ -y
    · left; rw [if_pos hy]
    · right; rw [if_neg hy]

/-- C9 counterexample: at `(x, y) = (0, 0)` both calls resolve the base
angle to `+90` degrees, so the two base angles differ by `0`, not `180`
degrees. -/
theorem get_angles_symmetry_counterexample :
    ¬ |(get_angles (-0) (-0) 5 1 3 2).1 -
        (get_angles 0 0 5 1 3 2).1| = 180 := by
  have hb : (get_angles 0 0 5 1 3 2).1 = degrees (π / 2) := by
    have h0 : (get_angles 0 0 5 1 3 2).1 = degrees (baseAngle 0 0) := rfl
    rw [h0]
    unfold baseAngle
    rw [if_neg (show ¬ ((0:ℝ) ≠ 0) by simp), if_pos le_rfl]
  rw [show (-0 : ℝ) = 0 from neg_zero, hb, degrees_pi_div_two]
  norm_num

/-- C9 amended: for `(x, y) ≠ (0, 0)`, reflecting the target through the
vertical axis changes the base angle by exactly `180` degrees in
absolute value and leaves the shoulder and elbow angles unchanged. -/
theorem get_angles_symmetry (x y z base arm1 arm2 : ℝ)
    (h : x ≠ 0 ∨ y ≠ 0) :
    |(get_angles (-x) (-y) z base arm1 arm2).1 -
        (get_angles x y z base arm1 arm2).1| = 180 ∧
      (get_angles (-x) (-y) z base arm1 arm2).2.1 =
        (get_angles x y z base arm1 arm2).2.1 ∧
      (get_angles (-x) (-y) z base arm1 arm2).2.2 =
        (get_angles x y z base arm1 arm2).2.2 := by
  refine ⟨?_, ?_, ?_⟩
  · have h1 : (get_angles (-x) (-y) z base arm1 arm2).1 =
        degrees (baseAngle (-x) (-y)) := rfl
    have h2 : (get_angles x y z base arm1 arm2).1 =
        degrees (baseAngle x y) := rfl
    rw [h1, h2]
    rcases baseAngle_neg x y h with hb | hb <;> rw [hb]
    · rw [show degrees (baseAngle x y + π) - degrees (baseAngle x y) =
          (180:ℝ) by unfold degrees; field_simp; ring]
      rw [abs_of_nonneg (by norm_num : (0:ℝ) ≤ 180)]
    · rw [show degrees (baseAngle x y - π) - degrees (baseAngle x y) =
          (-180:ℝ) by unfold degrees; field_simp; ring]
      rw [abs_neg, abs_of_nonneg (by norm_num : (0:ℝ) ≤ 180)]
  · simp [get_angles, neg_sq]
  · simp [get_angles, neg_sq]

/-- C9 witness: at `(x, y) = (1, 0)` the base angles differ by `180`
degrees in absolute value. -/
theorem get_angles_symmetry_witness :
    ((1:ℝ) ≠ 0 ∨ (0:ℝ) ≠ 0) ∧
      |(get_angles (-1) (-0) 0 0 1 1).1 -
        (get_angles 1 0 0 0 1 1).1| = 180 := by
  have h : (1:ℝ) ≠ 0 ∨ (0:ℝ) ≠ 0 := Or.inl one_ne_zero
  exact ⟨h, (get_angles_symmetry 1 0 0 0 1 1 h).1⟩

/-- C1: for a positive geometry, `base_angle_rad = atan2 y x` with
`x ≠ 0` (no degenerate branch) and a non-negative discriminant (no
fallback), the elbow position returned by `get_point` lies at distance
exactly `arm1` from the base joint `(0, 0, base)` and at distance
exactly `arm2` from the target `(x, y, z)`. -/
theorem get_point_distance_invariant (x y z base arm1 arm2 alpha_rad : ℝ)
    (hx : x ≠ 0) (hα : alpha_rad = atan2 y x)
    (hb : 0 < base) (h1 : 0 < arm1) (h2 : 0 < arm2)
    (hdisc : 0 ≤ ik_disc x y z base arm1 arm2 alpha_rad) :
    sqrt ((get_point x y z base arm1 arm2 alpha_rad).1 ^ 2 +
        (get_point x y z base arm1 arm2 alpha_rad).2.1 ^ 2 +
        ((get_point x y z base arm1 arm2 alpha_rad).2.2 - base) ^ 2) = arm1 ∧
      sqrt (((get_point x y z base arm1 arm2 alpha_rad).1 - x) ^ 2 +
        ((get_point x y z base arm1 arm2 alpha_rad).2.1 - y) ^ 2 +
        ((get_point x y z base arm1 arm2 alpha_rad).2.2 - z) ^ 2) = arm2 := by
  have htan : tan alpha_rad = y / x := by rw [hα]; exact tan_atan2 y x hx
  have hxy2 : (0:ℝ) < x ^ 2 + y ^ 2 := by positivity
  have hs : ik_xyterm x y alpha_rad = (x ^ 2 + y ^ 2) / x := by
    unfold ik_xyterm
    rw [htan]
    field_simp
    ring
  have hsne : ik_xyterm x y alpha_rad ≠ 0 := by
    rw [hs]; exact div_ne_zero (ne_of_gt hxy2) hx
  have ha1pos : (0:ℝ) < ik_a1 x y z base alpha_rad := by
    unfold ik_a1 ik_tanterm; positivity
  have hval : get_point x y z base arm1 arm2 alpha_rad =
      ((ik_e x y z base arm1 arm2 -
          (ik_b1 x y z base arm1 arm2 alpha_rad +
              sqrt (ik_disc x y z base arm1 arm2 alpha_rad)) /
            (2 * ik_a1 x y z base alpha_rad) * (z - base)) /
          ik_xyterm x y alpha_rad,
        (ik_e x y z base arm1 arm2 -
          (ik_b1 x y z base arm1 arm2 alpha_rad +
              sqrt (ik_disc x y z base arm1 arm2 alpha_rad)) /
            (2 * ik_a1 x y z base alpha_rad) * (z - base)) /
          ik_xyterm x y alpha_rad * tan alpha_rad,
        (ik_b1 x y z base arm1 arm2 alpha_rad +
            sqrt (ik_disc x y z base arm1 arm2 alpha_rad)) /
          (2 * ik_a1 x y z base alpha_rad)) := by
    unfold get_point
    simp only [if_pos (Or.inl hx), if_neg hsne, if_neg (not_lt.mpr hdisc)]
  simp only [hval]
  set C := (ik_b1 x y z base arm1 arm2 alpha_rad +
      sqrt (ik_disc x y z base arm1 arm2 alpha_rad)) /
    (2 * ik_a1 x y z base alpha_rad) with hC
  set A := (ik_e x y z base arm1 arm2 - C * (z - base)) /
    ik_xyterm x y alpha_rad with hA2
  have h2a1 : 2 * ik_a1 x y z base alpha_rad ≠ 0 := by positivity
  have hCmul : 2 * ik_a1 x y z base alpha_rad * C =
      ik_b1 x y z base arm1 arm2 alpha_rad +
        sqrt (ik_disc x y z base arm1 arm2 alpha_rad) := by
    rw [hC]; field_simp
  have hsq : sqrt (ik_disc x y z base arm1 arm2 alpha_rad) ^ 2 =
      ik_b1 x y z base arm1 arm2 alpha_rad ^ 2 -
        4 * ik_a1 x y z base alpha_rad *
          ik_c1 x y z base arm1 arm2 alpha_rad := by
    rw [sq_sqrt hdisc]; rfl
  have hquad : ik_a1 x y z base alpha_rad * C ^ 2 -
      ik_b1 x y z base arm1 arm2 alpha_rad * C +
      ik_c1 x y z base arm1 arm2 alpha_rad = 0 := by
    have h4 : 4 * ik_a1 x y z base alpha_rad *
        (ik_a1 x y z base alpha_rad * C ^ 2 -
          ik_b1 x y z base arm1 arm2 alpha_rad * C +
          ik_c1 x y z base arm1 arm2 alpha_rad) = 0 := by
      linear_combination
        (2 * ik_a1 x y z base alpha_rad * C -
          ik_b1 x y z base arm1 arm2 alpha_rad +
          sqrt (ik_disc x y z base arm1 arm2 alpha_rad)) * hCmul + hsq
    exact (mul_eq_zero.mp h4).resolve_left
      (by positivity : (4:ℝ) * ik_a1 x y z base alpha_rad ≠ 0)
  have hAs : A * ik_xyterm x y alpha_rad =
      ik_e x y z base arm1 arm2 - C * (z - base) := by
    rw [hA2]; field_simp
  have hq2 : ik_tanterm alpha_rad *
      (ik_e x y z base arm1 arm2 - C * (z - base)) ^ 2 +
      (ik_xyterm x y alpha_rad) ^ 2 * ((C - base) ^ 2 - arm1 ^ 2) = 0 := by
    have hq := hquad
    unfold ik_a1 ik_b1 ik_c1 at hq
    field_simp [hsne] at hq
    linear_combination hq
  rw [← hAs] at hq2
  have hq3 : (ik_xyterm x y alpha_rad) ^ 2 *
      (ik_tanterm alpha_rad * A ^ 2 + (C - base) ^ 2 - arm1 ^ 2) = 0 := by
    linear_combination hq2
  have hkey1 : ik_tanterm alpha_rad * A ^ 2 + (C - base) ^ 2 = arm1 ^ 2 := by
    have h0 := (mul_eq_zero.mp hq3).resolve_left (pow_ne_zero 2 hsne)
    linarith
  have hsph1 : A ^ 2 + (A * tan alpha_rad) ^ 2 + (C - base) ^ 2 = arm1 ^ 2 := by
    have hT : ik_tanterm alpha_rad = 1 + (y / x) ^ 2 := by
      unfold ik_tanterm; rw [htan]
    rw [htan]
    rw [hT] at hkey1
    linear_combination hkey1
  have hlin : A * x + (A * tan alpha_rad) * y + C * (z - base) =
      ik_e x y z base arm1 arm2 := by
    rw [htan]
    rw [hs] at hAs
    have hxx : A * x + A * (y / x) * y = A * ((x ^ 2 + y ^ 2) / x) := by
      field_simp
      ring
    linear_combination hxx + hAs
  have hsph2 : (A - x) ^ 2 + (A * tan alpha_rad - y) ^ 2 + (C - z) ^ 2 =
      arm2 ^ 2 := by
    have he : ik_e x y z base arm1 arm2 =
        (x ^ 2 + y ^ 2 + z ^ 2 - base ^ 2 + arm1 ^ 2 - arm2 ^ 2) / 2 := rfl
    linear_combination hsph1 - 2 * hlin - 2 * he
  constructor
  · rw [hsph1, sqrt_sq h1.le]
  · rw [hsph2, sqrt_sq h2.le]

/-- C1 witness: at target `(1, 0, 1)` with `base = arm1 = arm2 = 1` and
`base_angle_rad = atan2 0 1 = 0` the hypotheses hold (the discriminant
is `3`) and the elbow is at distance `1` from the base joint. -/
theorem get_point_distance_invariant_witness :
    ((1:ℝ) ≠ 0) ∧ ((0:ℝ) = atan2 0 1) ∧ (0:ℝ) < 1 ∧
      0 ≤ ik_disc 1 0 1 1 1 1 0 ∧
      sqrt ((get_point 1 0 1 1 1 1 0).1 ^ 2 +
        (get_point 1 0 1 1 1 1 0).2.1 ^ 2 +
        ((get_point 1 0 1 1 1 1 0).2.2 - 1) ^ 2) = 1 := by
  have hx : (1:ℝ) ≠ 0 := one_ne_zero
  have hα : (0:ℝ) = atan2 0 1 := by
    unfold atan2
    rw [if_pos one_pos]
    norm_num [Real.arctan_zero]
  have hdisc : 0 ≤ ik_disc 1 0 1 1 1 1 0 := by
    norm_num [ik_disc, ik_b1, ik_a1, ik_c1, ik_e, ik_tanterm, ik_xyterm,
      Real.tan_zero]
  exact ⟨hx, hα, one_pos, hdisc,
    (get_point_distance_invariant 1 0 1 1 1 1 0 hx hα one_pos one_pos
      one_pos hdisc).1⟩

theorem radians_degrees (t : ℝ) : radians (degrees t) = t := by
  unfold radians degrees
  field_simp

/-- `atan2 Y X` is the angle of the point `(X, Y)`:
`sqrt (X² + Y²) * (cos, sin) (atan2 Y X) = (X, Y)` (at the origin both
sides vanish). -/
theorem atan2_dir (Y X : ℝ) :
    sqrt (X ^ 2 + Y ^ 2) * cos (atan2 Y X) = X ∧
      sqrt (X ^ 2 + Y ^ 2) * sin (atan2 Y X) = Y := by
  rcases lt_trichotomy X 0 with hx | hx | hx
  · have hxne : X ≠ 0 := ne_of_lt hx
    have hr : (0:ℝ) < sqrt (X ^ 2 + Y ^ 2) := sqrt_pos.mpr (by positivity)
    have hb : atan2 Y X =
        if 0 ≤ Y then arctan (Y / X) + π else arctan (Y / X) - π := by
      unfold atan2
      rw [if_neg (not_lt.mpr hx.le), if_pos hx]
    have hst : sqrt (1 + (Y / X) ^ 2) = sqrt (X ^ 2 + Y ^ 2) / (-X) := by
      rw [show 1 + (Y / X) ^ 2 = (X ^ 2 + Y ^ 2) / X ^ 2 by
        field_simp]
      rw [sqrt_div (by positivity : (0:ℝ) ≤ X ^ 2 + Y ^ 2), sqrt_sq_eq_abs,
        abs_of_neg hx]
    have hcos : cos (atan2 Y X) = X / sqrt (X ^ 2 + Y ^ 2) := by
      rcases le_or_lt 0 Y with hy | hy
      · rw [hb, if_pos hy, cos_add_pi, cos_arctan, hst, one_div_div]
        ring
      · rw [hb, if_neg (not_le.mpr hy), cos_sub_pi, cos_arctan, hst,
          one_div_div]
        ring
    have hsin : sin (atan2 Y X) = Y / sqrt (X ^ 2 + Y ^ 2) := by
      rcases le_or_lt 0 Y with hy | hy
      · rw [hb, if_pos hy, sin_add_pi, sin_arctan, hst]
        field_simp
        ring
      · rw [hb, if_neg (not_le.mpr hy), sin_sub_pi, sin_arctan, hst]
        field_simp
        ring
    constructor
    · rw [hcos, mul_comm, div_mul_cancel₀ _ (ne_of_gt hr)]
    · rw [hsin, mul_comm, div_mul_cancel₀ _ (ne_of_gt hr)]
  · subst hx
    have hr0 : sqrt ((0:ℝ) ^ 2 + Y ^ 2) = |Y| := by
      rw [show ((0:ℝ) ^ 2 + Y ^ 2) = Y ^ 2 by ring, sqrt_sq_eq_abs]
    have hb : atan2 Y 0 =
        if 0 < Y then π / 2 else if Y < 0 then -(π / 2) else 0 := by
      unfold atan2
      rw [if_neg (lt_irrefl 0), if_neg (lt_irrefl 0)]
    rcases lt_trichotomy Y 0 with hy | hy | hy
    · rw [hb, if_neg (by linarith : ¬ (0:ℝ) < Y), if_pos hy, hr0, cos_neg,
        sin_neg, cos_pi_div_two, sin_pi_div_two, abs_of_neg hy]
      constructor <;> ring
    · subst hy
      rw [hb, if_neg (lt_irrefl 0), if_neg (lt_irrefl 0), cos_zero,
        sin_zero, hr0]
      norm_num
    · rw [hb, if_pos hy, hr0, cos_pi_div_two, sin_pi_div_two,
        abs_of_pos hy]
      constructor <;> ring
  · have hxne : X ≠ 0 := ne_of_gt hx
    have hr : (0:ℝ) < sqrt (X ^ 2 + Y ^ 2) := sqrt_pos.mpr (by positivity)
    have hb : atan2 Y X = arctan (Y / X) := by
      unfold atan2
      rw [if_pos hx]
    have hst : sqrt (1 + (Y / X) ^ 2) = sqrt (X ^ 2 + Y ^ 2) / X := by
      rw [show 1 + (Y / X) ^ 2 = (X ^ 2 + Y ^ 2) / X ^ 2 by field_simp]
      rw [sqrt_div (by positivity : (0:ℝ) ≤ X ^ 2 + Y ^ 2), sqrt_sq_eq_abs,
        abs_of_pos hx]
    constructor
    · rw [hb, cos_arctan, hst, one_div_div, mul_comm,
        div_mul_cancel₀ _ (ne_of_gt hr)]
    · rw [hb, sin_arctan, hst]
      field_simp

/-- The base angle of `get_angles` points from the origin towards the
planar projection `(x, y)` of the target:
`sqrt (x² + y²) * (cos, sin) (baseAngle x y) = (x, y)`. -/
theorem baseAngle_dir (x y : ℝ) :
    sqrt (x ^ 2 + y ^ 2) * cos (baseAngle x y) = x ∧
      sqrt (x ^ 2 + y ^ 2) * sin (baseAngle x y) = y := by
  rcases lt_trichotomy x 0 with hx | hx | hx
  · have hxne : x ≠ 0 := ne_of_lt hx
    have hr : (0:ℝ) < sqrt (x ^ 2 + y ^ 2) := sqrt_pos.mpr (by positivity)
    have hb : baseAngle x y =
        if 0 ≤ y then arctan (y / x) + π else arctan (y / x) - π := by
      unfold baseAngle atan2
      rw [if_pos hxne, if_neg (not_lt.mpr hx.le), if_pos hx]
    have hst : sqrt (1 + (y / x) ^ 2) = sqrt (x ^ 2 + y ^ 2) / (-x) := by
      rw [show 1 + (y / x) ^ 2 = (x ^ 2 + y ^ 2) / x ^ 2 by field_simp]
      rw [sqrt_div (by positivity : (0:ℝ) ≤ x ^ 2 + y ^ 2), sqrt_sq_eq_abs,
        abs_of_neg hx]
    have hcos : cos (baseAngle x y) = x / sqrt (x ^ 2 + y ^ 2) := by
      rcases le_or_lt 0 y with hy | hy
      · rw [hb, if_pos hy, cos_add_pi, cos_arctan, hst, one_div_div]
        ring
      · rw [hb, if_neg (not_le.mpr hy), cos_sub_pi, cos_arctan, hst,
          one_div_div]
        ring
    have hsin : sin (baseAngle x y) = y / sqrt (x ^ 2 + y ^ 2) := by
      rcases le_or_lt 0 y with hy | hy
      · rw [hb, if_pos hy, sin_add_pi, sin_arctan, hst]
        field_simp
        ring
      · rw [hb, if_neg (not_le.mpr hy), sin_sub_pi, sin_arctan, hst]
        field_simp
        ring
    constructor
    · rw [hcos, mul_comm, div_mul_cancel₀ _ (ne_of_gt hr)]
    · rw [hsin, mul_comm, div_mul_cancel₀ _ (ne_of_gt hr)]
  · subst hx
    have hr0 : sqrt ((0:ℝ) ^ 2 + y ^ 2) = |y| := by
      rw [show ((0:ℝ) ^ 2 + y ^ 2) = y ^ 2 by ring, sqrt_sq_eq_abs]
    have hb : baseAngle 0 y = if 0 ≤ y then π / 2 else -(π / 2) := by
      unfold baseAngle
      rw [if_neg (show ¬ ((0:ℝ) ≠ 0) by simp)]
    rcases le_or_lt 0 y with hy | hy
    · rw [hb, if_pos hy, hr0, cos_pi_div_two, sin_pi_div_two,
        abs_of_nonneg hy]
      constructor <;> ring
    · rw [hb, if_neg (not_le.mpr hy), hr0, cos_neg, sin_neg,
        cos_pi_div_two, sin_pi_div_two, abs_of_neg hy]
      constructor <;> ring
  · have hxne : x ≠ 0 := ne_of_gt hx
    have hr : (0:ℝ) < sqrt (x ^ 2 + y ^ 2) := sqrt_pos.mpr (by positivity)
    have hb : baseAngle x y = arctan (y / x) := by
      unfold baseAngle atan2
      rw [if_pos hxne, if_pos hx]
    have hst : sqrt (1 + (y / x) ^ 2) = sqrt (x ^ 2 + y ^ 2) / x := by
      rw [show 1 + (y / x) ^ 2 = (x ^ 2 + y ^ 2) / x ^ 2 by field_simp]
      rw [sqrt_div (by positivity : (0:ℝ) ≤ x ^ 2 + y ^ 2), sqrt_sq_eq_abs,
        abs_of_pos hx]
    constructor
    · rw [hb, cos_arctan, hst, one_div_div, mul_comm,
        div_mul_cancel₀ _ (ne_of_gt hr)]
    · rw [hb, sin_arctan, hst]
      field_simp

/-- Cosine and sine of the elevation angle `arcsin ((z - base)/d)`. -/
theorem elevation_cos_sin (x y z base : ℝ)
    (hd : 0 < sqrt (x ^ 2 + y ^ 2 + (z - base) ^ 2)) :
    cos (arcsin ((z - base) / sqrt (x ^ 2 + y ^ 2 + (z - base) ^ 2))) =
      sqrt (x ^ 2 + y ^ 2) / sqrt (x ^ 2 + y ^ 2 + (z - base) ^ 2) ∧
    sin (arcsin ((z - base) / sqrt (x ^ 2 + y ^ 2 + (z - base) ^ 2))) =
      (z - base) / sqrt (x ^ 2 + y ^ 2 + (z - base) ^ 2) := by
  have hS : (0:ℝ) < x ^ 2 + y ^ 2 + (z - base) ^ 2 := sqrt_pos.mp hd
  have hdd : sqrt (x ^ 2 + y ^ 2 + (z - base) ^ 2) ^ 2 =
      x ^ 2 + y ^ 2 + (z - base) ^ 2 := sq_sqrt hS.le
  have habs : |z - base| ≤ sqrt (x ^ 2 + y ^ 2 + (z - base) ^ 2) := by
    rw [← sqrt_sq_eq_abs]
    exact sqrt_le_sqrt (by nlinarith)
  have hb1 : -1 ≤ (z - base) / sqrt (x ^ 2 + y ^ 2 + (z - base) ^ 2) := by
    rw [le_div_iff hd]
    have := (abs_le.mp habs).1
    linarith
  have hb2 : (z - base) / sqrt (x ^ 2 + y ^ 2 + (z - base) ^ 2) ≤ 1 :=
    (div_le_one hd).mpr (abs_le.mp habs).2
  constructor
  · rw [cos_arcsin]
    rw [show 1 - ((z - base) / sqrt (x ^ 2 + y ^ 2 + (z - base) ^ 2)) ^ 2 =
        (x ^ 2 + y ^ 2) / (x ^ 2 + y ^ 2 + (z - base) ^ 2) by
      rw [div_pow, hdd]
      field_simp]
    rw [sqrt_div (by positivity : (0:ℝ) ≤ x ^ 2 + y ^ 2)]
  · exact sin_arcsin hb1 hb2

/-- Planar closure of the two-link law-of-cosines construction: with
`θ2 = arccos ((arm1² + d² - arm2²)/(2·arm1·d))` and
`γ = arccos ((arm1² + arm2² - d²)/(2·arm1·arm2))`, the chain
`arm1` at angle `θ2` followed by `arm2` at angle `θ2 + γ - π` closes
exactly on the point at distance `d` on the axis. -/
theorem law_cos_closure (arm1 arm2 d : ℝ) (h1 : 0 < arm1) (h2 : 0 < arm2)
    (hd : 0 < d) (hlo : |arm1 - arm2| ≤ d) (hhi : d ≤ arm1 + arm2) :
    arm1 * cos (arccos ((arm1 ^ 2 + d ^ 2 - arm2 ^ 2) / (2 * arm1 * d))) -
      arm2 * cos (arccos ((arm1 ^ 2 + d ^ 2 - arm2 ^ 2) / (2 * arm1 * d)) +
        arccos ((arm1 ^ 2 + arm2 ^ 2 - d ^ 2) / (2 * arm1 * arm2))) = d ∧
    arm1 * sin (arccos ((arm1 ^ 2 + d ^ 2 - arm2 ^ 2) / (2 * arm1 * d))) -
      arm2 * sin (arccos ((arm1 ^ 2 + d ^ 2 - arm2 ^ 2) / (2 * arm1 * d)) +
        arccos ((arm1 ^ 2 + arm2 ^ 2 - d ^ 2) / (2 * arm1 * arm2))) = 0 := by
  obtain ⟨hlo1, hlo2⟩ := abs_le.mp hlo
  have h2ad : (0:ℝ) < 2 * arm1 * d := by positivity
  have h2aa : (0:ℝ) < 2 * arm1 * arm2 := by positivity
  have hc2l : -1 ≤ (arm1 ^ 2 + d ^ 2 - arm2 ^ 2) / (2 * arm1 * d) := by
    rw [le_div_iff h2ad]
    nlinarith
  have hc2u : (arm1 ^ 2 + d ^ 2 - arm2 ^ 2) / (2 * arm1 * d) ≤ 1 := by
    rw [div_le_one h2ad]
    nlinarith
  have hcgl : -1 ≤ (arm1 ^ 2 + arm2 ^ 2 - d ^ 2) / (2 * arm1 * arm2) := by
    rw [le_div_iff h2aa]
    nlinarith
  have hcgu : (arm1 ^ 2 + arm2 ^ 2 - d ^ 2) / (2 * arm1 * arm2) ≤ 1 := by
    rw [div_le_one h2aa]
    nlinarith
  have hΔnn : (0:ℝ) ≤ ((arm1 + arm2) ^ 2 - d ^ 2) * (d ^ 2 - (arm1 - arm2) ^ 2) :=
    mul_nonneg (by nlinarith) (by nlinarith)
  have hs2v : sin (arccos ((arm1 ^ 2 + d ^ 2 - arm2 ^ 2) / (2 * arm1 * d))) =
      sqrt (((arm1 + arm2) ^ 2 - d ^ 2) * (d ^ 2 - (arm1 - arm2) ^ 2)) /
        (2 * arm1 * d) := by
    rw [sin_arccos]
    rw [show 1 - ((arm1 ^ 2 + d ^ 2 - arm2 ^ 2) / (2 * arm1 * d)) ^ 2 =
        ((arm1 + arm2) ^ 2 - d ^ 2) * (d ^ 2 - (arm1 - arm2) ^ 2) /
          (2 * arm1 * d) ^ 2 by field_simp; ring]
    rw [sqrt_div hΔnn, sqrt_sq h2ad.le]
  have hsgv : sin (arccos ((arm1 ^ 2 + arm2 ^ 2 - d ^ 2) / (2 * arm1 * arm2))) =
      sqrt (((arm1 + arm2) ^ 2 - d ^ 2) * (d ^ 2 - (arm1 - arm2) ^ 2)) /
        (2 * arm1 * arm2) := by
    rw [sin_arccos]
    rw [show 1 - ((arm1 ^ 2 + arm2 ^ 2 - d ^ 2) / (2 * arm1 * arm2)) ^ 2 =
        ((arm1 + arm2) ^ 2 - d ^ 2) * (d ^ 2 - (arm1 - arm2) ^ 2) /
          (2 * arm1 * arm2) ^ 2 by field_simp; ring]
    rw [sqrt_div hΔnn, sqrt_sq h2aa.le]
  have hNN : sqrt (((arm1 + arm2) ^ 2 - d ^ 2) * (d ^ 2 - (arm1 - arm2) ^ 2)) *
      sqrt (((arm1 + arm2) ^ 2 - d ^ 2) * (d ^ 2 - (arm1 - arm2) ^ 2)) =
      ((arm1 + arm2) ^ 2 - d ^ 2) * (d ^ 2 - (arm1 - arm2) ^ 2) :=
    mul_self_sqrt hΔnn
  have hprod : sqrt (((arm1 + arm2) ^ 2 - d ^ 2) * (d ^ 2 - (arm1 - arm2) ^ 2)) /
        (2 * arm1 * d) *
      (sqrt (((arm1 + arm2) ^ 2 - d ^ 2) * (d ^ 2 - (arm1 - arm2) ^ 2)) /
        (2 * arm1 * arm2)) =
      ((arm1 + arm2) ^ 2 - d ^ 2) * (d ^ 2 - (arm1 - arm2) ^ 2) /
        (2 * arm1 * d * (2 * arm1 * arm2)) := by
    rw [div_mul_div_comm, hNN]
  constructor
  · rw [cos_add, cos_arccos hc2l hc2u, cos_arccos hcgl hcgu, hs2v, hsgv,
      hprod]
    field_simp
    ring
  · rw [sin_add, cos_arccos hc2l hc2u, cos_arccos hcgl hcgu, hs2v, hsgv]
    field_simp
    ring

/-- For a reachable distance `d` the two law-of-cosines ratios already
lie in `[-1, 1]`, so the clamps in `get_angles` are the identity. -/
theorem cos_ratio_bounds (a1 a2 d : ℝ) (h1 : 0 < a1) (h2 : 0 < a2)
    (hd : 0 < d) (hlo : |a1 - a2| ≤ d) (hhi : d ≤ a1 + a2) :
    (-1 ≤ (a1 ^ 2 + d ^ 2 - a2 ^ 2) / (2 * a1 * d) ∧
      (a1 ^ 2 + d ^ 2 - a2 ^ 2) / (2 * a1 * d) ≤ 1) ∧
    (-1 ≤ (a1 ^ 2 + a2 ^ 2 - d ^ 2) / (2 * a1 * a2) ∧
      (a1 ^ 2 + a2 ^ 2 - d ^ 2) / (2 * a1 * a2) ≤ 1) := by
  obtain ⟨hlo1, hlo2⟩ := abs_le.mp hlo
  have h2ad : (0:ℝ) < 2 * a1 * d := by positivity
  have h2aa : (0:ℝ) < 2 * a1 * a2 := by positivity
  refine ⟨⟨?_, ?_⟩, ?_, ?_⟩
  · rw [le_div_iff h2ad]; nlinarith
  · rw [div_le_one h2ad]; nlinarith
  · rw [le_div_iff h2aa]; nlinarith
  · rw [div_le_one h2aa]; nlinarith

/-- C2 amended: with the forearm at the cumulative angle
shoulder + elbow − 180° (the code returns the interior elbow angle,
180° when the arm is straight), the forward kinematics reconstructs the
target exactly from `get_angles`'s output on the claim's whole domain
except where the code itself cannot solve it: it holds both for
`0 < d`, `|arm1 - arm2| ≤ d ≤ arm1 + arm2 - 0.001` (law-of-cosines
branch, clamps inactive) and at `d = arm1 + arm2` exactly (extended-arm
branch); excluded are only `d = 0` (the code raises, see C4),
`d < |arm1 - arm2|` (clamps engage) and the code's own deliberate
approximation band `arm1 + arm2 - 0.001 < d < arm1 + arm2`. -/
theorem get_angles_roundtrip (x y z base arm1 arm2 : ℝ)
    (h1 : 0 < arm1) (h2 : 0 < arm2)
    (hdom : (0 < sqrt (x ^ 2 + y ^ 2 + (z - base) ^ 2) ∧
        |arm1 - arm2| ≤ sqrt (x ^ 2 + y ^ 2 + (z - base) ^ 2) ∧
        sqrt (x ^ 2 + y ^ 2 + (z - base) ^ 2) ≤ arm1 + arm2 - 0.001) ∨
      sqrt (x ^ 2 + y ^ 2 + (z - base) ^ 2) = arm1 + arm2) :
    fk_corrected (get_angles x y z base arm1 arm2) base arm1 arm2 =
      (x, y, z) := by
  rcases hdom with ⟨hd, hlo, hhi⟩ | hmax
  case inr =>
    have hd : (0:ℝ) < sqrt (x ^ 2 + y ^ 2 + (z - base) ^ 2) := by
      rw [hmax]; positivity
    have heps : (0:ℝ) < 0.001 := by norm_num
    have hgt : arm1 + arm2 - 0.001 <
        sqrt (x ^ 2 + y ^ 2 + (z - base) ^ 2) := by
      rw [hmax]; linarith
    have hratio : (arm1 ^ 2 + arm2 ^ 2 -
        sqrt (x ^ 2 + y ^ 2 + (z - base) ^ 2) ^ 2) / (2 * arm1 * arm2) =
        -1 := by
      rw [hmax]
      rw [show arm1 ^ 2 + arm2 ^ 2 - (arm1 + arm2) ^ 2 =
        -(2 * arm1 * arm2) by ring]
      rw [neg_div, div_self (by positivity : (2:ℝ) * arm1 * arm2 ≠ 0)]
    have hval2 : get_angles x y z base arm1 arm2 =
        (degrees (baseAngle x y),
          degrees (atan2 (z - base) (sqrt (x ^ 2 + y ^ 2))),
          degrees π) := by
      unfold get_angles
      simp only [if_pos hgt, add_zero, hratio]
      rw [show max (min (-1 : ℝ) 1) (-1) = -1 by norm_num, arccos_neg_one]
    rw [hval2]
    simp only [fk_corrected, radians_degrees, Prod.mk.injEq]
    rw [show atan2 (z - base) (sqrt (x ^ 2 + y ^ 2)) + π - π =
      atan2 (z - base) (sqrt (x ^ 2 + y ^ 2)) by ring]
    obtain ⟨hbc, hbs⟩ := baseAngle_dir x y
    obtain ⟨hac, has⟩ := atan2_dir (z - base) (sqrt (x ^ 2 + y ^ 2))
    rw [show sqrt ((sqrt (x ^ 2 + y ^ 2)) ^ 2 + (z - base) ^ 2) =
        sqrt (x ^ 2 + y ^ 2 + (z - base) ^ 2) by
      rw [sq_sqrt (by positivity : (0:ℝ) ≤ x ^ 2 + y ^ 2)], hmax]
      at hac has
    have hRR : arm1 * cos (atan2 (z - base) (sqrt (x ^ 2 + y ^ 2))) +
        arm2 * cos (atan2 (z - base) (sqrt (x ^ 2 + y ^ 2))) =
        sqrt (x ^ 2 + y ^ 2) := by linear_combination hac
    refine ⟨?_, ?_, ?_⟩
    · rw [hRR]; exact hbc
    · rw [hRR]; exact hbs
    · linear_combination has
  have hhi' : sqrt (x ^ 2 + y ^ 2 + (z - base) ^ 2) ≤ arm1 + arm2 :=
    le_trans hhi (by norm_num)
  have hDne : sqrt (x ^ 2 + y ^ 2 + (z - base) ^ 2) ≠ 0 := ne_of_gt hd
  obtain ⟨⟨hc2l, hc2u⟩, hcgl, hcgu⟩ := cos_ratio_bounds arm1 arm2
    (sqrt (x ^ 2 + y ^ 2 + (z - base) ^ 2)) h1 h2 hd hlo hhi'
  have hval : get_angles x y z base arm1 arm2 =
      (degrees (baseAngle x y),
        degrees (arcsin ((z - base) / sqrt (x ^ 2 + y ^ 2 + (z - base) ^ 2)) +
          arccos ((arm1 ^ 2 + sqrt (x ^ 2 + y ^ 2 + (z - base) ^ 2) ^ 2 -
              arm2 ^ 2) /
            (2 * arm1 * sqrt (x ^ 2 + y ^ 2 + (z - base) ^ 2)))),
        degrees (arccos ((arm1 ^ 2 + arm2 ^ 2 -
            sqrt (x ^ 2 + y ^ 2 + (z - base) ^ 2) ^ 2) /
          (2 * arm1 * arm2)))) := by
    unfold get_angles
    simp only [if_neg (not_lt.mpr hhi), if_pos hDne, min_eq_left hc2u,
      max_eq_left hc2l, min_eq_left hcgu, max_eq_left hcgl]
  obtain ⟨hclos1, hclos2⟩ := law_cos_closure arm1 arm2
    (sqrt (x ^ 2 + y ^ 2 + (z - base) ^ 2)) h1 h2 hd hlo hhi'
  obtain ⟨hecos, hesin⟩ := elevation_cos_sin x y z base hd
  obtain ⟨hbc, hbs⟩ := baseAngle_dir x y
  rw [hval]
  simp only [fk_corrected, radians_degrees, Prod.mk.injEq]
  set φ := arcsin ((z - base) / sqrt (x ^ 2 + y ^ 2 + (z - base) ^ 2))
    with hφdef
  set θ2 := arccos ((arm1 ^ 2 + sqrt (x ^ 2 + y ^ 2 + (z - base) ^ 2) ^ 2 -
      arm2 ^ 2) / (2 * arm1 * sqrt (x ^ 2 + y ^ 2 + (z - base) ^ 2)))
    with hθdef
  set γ2 := arccos ((arm1 ^ 2 + arm2 ^ 2 -
      sqrt (x ^ 2 + y ^ 2 + (z - base) ^ 2) ^ 2) / (2 * arm1 * arm2))
    with hγdef
  have hR : arm1 * cos (φ + θ2) + arm2 * cos (φ + θ2 + γ2 - π) =
      sqrt (x ^ 2 + y ^ 2) := by
    rw [cos_sub_pi]
    rw [show φ + θ2 + γ2 = φ + (θ2 + γ2) by ring]
    rw [cos_add φ θ2, cos_add φ (θ2 + γ2)]
    have e1 : cos φ * (arm1 * cos θ2 - arm2 * cos (θ2 + γ2)) -
        sin φ * (arm1 * sin θ2 - arm2 * sin (θ2 + γ2)) =
        sqrt (x ^ 2 + y ^ 2) := by
      rw [hclos1, hclos2, hecos, hesin]
      rw [mul_zero, sub_zero, div_mul_cancel₀ _ hDne]
    linear_combination e1
  have hZ : arm1 * sin (φ + θ2) + arm2 * sin (φ + θ2 + γ2 - π) =
      z - base := by
    rw [sin_sub_pi]
    rw [show φ + θ2 + γ2 = φ + (θ2 + γ2) by ring]
    rw [sin_add φ θ2, sin_add φ (θ2 + γ2)]
    have e2 : sin φ * (arm1 * cos θ2 - arm2 * cos (θ2 + γ2)) +
        cos φ * (arm1 * sin θ2 - arm2 * sin (θ2 + γ2)) = z - base := by
      rw [hclos1, hclos2, hecos, hesin]
      rw [mul_zero, add_zero, div_mul_cancel₀ _ hDne]
    linear_combination e2
  refine ⟨?_, ?_, ?_⟩
  · rw [hR]; exact hbc
  · rw [hR]; exact hbs
  · linear_combination hZ

theorem degrees_zero : degrees 0 = 0 := by
  unfold degrees
  simp

theorem degrees_pi_div_three : degrees (π / 3) = 60 := by
  unfold degrees
  field_simp
  ring

theorem arccos_half : arccos (1 / 2 : ℝ) = π / 3 := by
  have h := arccos_cos (by positivity : (0:ℝ) ≤ π / 3)
    (by linarith [pi_pos] : π / 3 ≤ π)
  rw [cos_pi_div_three] at h
  exact h

theorem get_angles_example : get_angles 1 0 1 1 1 1 = (0, 60, 60) := by
  have hs1 : sqrt ((1:ℝ) ^ 2 + 0 ^ 2 + (1 - 1) ^ 2) = 1 := by
    rw [show ((1:ℝ) ^ 2 + 0 ^ 2 + (1 - 1) ^ 2) = 1 by norm_num, sqrt_one]
  have hb0 : baseAngle 1 0 = 0 := by
    unfold baseAngle atan2
    rw [if_pos (show (1:ℝ) ≠ 0 from one_ne_zero), if_pos one_pos]
    norm_num [Real.arctan_zero]
  simp only [get_angles, hs1, hb0]
  rw [if_neg (by norm_num : ¬((1:ℝ) + 1 - 0.001 < 1))]
  norm_num [min_def, max_def, arcsin_zero, arccos_half, degrees_zero,
    degrees_pi_div_three]

theorem fk_spec_example : (fk_spec (0, 60, 60) 1 1 1).1 = 0 := by
  have hr60 : radians 60 = π / 3 := by unfold radians; ring
  have hr0 : radians 0 = 0 := by unfold radians; simp
  have hc23 : cos (π / 3 + π / 3) = -(1 / 2) := by
    rw [show (π / 3 + π / 3 : ℝ) = π - π / 3 by ring, cos_pi_sub,
      cos_pi_div_three]
  simp only [fk_spec, hr60, hr0, hc23, cos_pi_div_three, cos_zero]
  norm_num

/-- C2 counterexample: at the reachable target `(1, 0, 1)` with the
positive geometry `base = 1`, `arm1 = arm2 = 1`, the forward kinematics
of the claim — forearm at the cumulative angle shoulder + elbow — lands
at planar radius `0` instead of `1`, an error far beyond the claimed
tolerance `1e-3 * (arm1 + arm2)`. -/
theorem get_angles_roundtrip_counterexample :
    ¬ |(fk_spec (get_angles 1 0 1 1 1 1) 1 1 1).1 - 1| ≤ 1 / 500 := by
  rw [get_angles_example, fk_spec_example]
  rw [show ((0:ℝ) - 1) = -1 by norm_num, abs_neg, abs_one]
  norm_num

/-- C2 witness: at the target `(1, 0, 1)` with the positive geometry
`base = 1`, `arm1 = arm2 = 1` the hypotheses hold (law-of-cosines
branch) and the corrected forward kinematics reconstructs the target
exactly. -/
theorem get_angles_roundtrip_witness :
    (0:ℝ) < 1 ∧ (0:ℝ) < 1 ∧
      (0 < sqrt ((1:ℝ) ^ 2 + 0 ^ 2 + (1 - 1) ^ 2) ∧
        |(1:ℝ) - 1| ≤ sqrt ((1:ℝ) ^ 2 + 0 ^ 2 + (1 - 1) ^ 2) ∧
        sqrt ((1:ℝ) ^ 2 + 0 ^ 2 + (1 - 1) ^ 2) ≤ 1 + 1 - 0.001) ∧
      fk_corrected (get_angles 1 0 1 1 1 1) 1 1 1 = (1, 0, 1) := by
  have hs1 : sqrt ((1:ℝ) ^ 2 + 0 ^ 2 + (1 - 1) ^ 2) = 1 := by
    rw [show ((1:ℝ) ^ 2 + 0 ^ 2 + (1 - 1) ^ 2) = 1 by norm_num, sqrt_one]
  have hdom : 0 < sqrt ((1:ℝ) ^ 2 + 0 ^ 2 + (1 - 1) ^ 2) ∧
      |(1:ℝ) - 1| ≤ sqrt ((1:ℝ) ^ 2 + 0 ^ 2 + (1 - 1) ^ 2) ∧
      sqrt ((1:ℝ) ^ 2 + 0 ^ 2 + (1 - 1) ^ 2) ≤ 1 + 1 - 0.001 := by
    refine ⟨by rw [hs1]; norm_num, by rw [hs1]; norm_num,
      by rw [hs1]; norm_num⟩
  exact ⟨one_pos, one_pos, hdom,
    get_angles_roundtrip 1 0 1 1 1 1 one_pos one_pos (Or.inl hdom)⟩

end VortexArm
